import Mathlib

/-!
Shallow embedding of the UEx-CiteHub crawler core: the resumable `Task`
state machine (`src/server/crawler/task.py`) and the cross-source `Merger`
(`src/server/merger.py`).  Times are modelled as rationals (Python floats
carry event-loop and wall-clock seconds), storage as explicit state, and
exceptions as explicit outcome values.
-/

namespace CiteHub

/-- Author record persisted through `Storage.save_author`.  Modelled from the
spec: the author/publication record types live in the storage module, which is
not under `src/`; the spec only requires authors to be storable values. -/
structure Author where
  id : String
deriving DecidableEq, Repr

/-- Publication record.  Modelled from the spec: "has a stable unique
path/identifier (`path`, returned by `unique_path_name`), a name/title, and an
optional list of citing-publication identifiers (`cit_paths`)"; the record type
itself lives in the storage module, which is not under `src/`. -/
structure Publication where
  id : String
  name : String
  path : String
  cit_paths : Option (List String)
deriving DecidableEq, Repr

/-- Replace the binding of `k` in an association list, or append it. -/
def updateAssoc (l : List (String × Publication)) (k : String) (v : Publication) :
    List (String × Publication) :=
  if l.any (fun kv => kv.1 = k) then
    l.map (fun kv => if kv.1 = k then (k, v) else kv)
  else
    l ++ [(k, v)]

/-- Add `x` to a duplicate-free list unless already present (Python `set.add`). -/
def insertIfNew (l : List String) (x : String) : List String :=
  if x ∈ l then l else l ++ [x]

/-- Per-source durable record store.  Modelled from the spec: the `Storage`
collaborator (`save_author`, `load_pub`, `save_pub`, `user_pub_ids`) is consumed
by `Task.step` and the merger but its code is not under `src/`. -/
structure Storage where
  authors : List Author
  pubs : List (String × Publication)
  user_pub_ids : List String
deriving DecidableEq, Repr

/-- Modelled from the spec: `save_author(author)` persists one author record. -/
def Storage.save_author (st : Storage) (a : Author) : Storage :=
  { st with authors := st.authors ++ [a] }

/-- Modelled from the spec: `save_pub(pub)` persists one publication, keyed by
its identifier. -/
def Storage.save_pub (st : Storage) (p : Publication) : Storage :=
  { st with pubs := updateAssoc st.pubs p.id p }

/-- Modelled from the spec: `load_pub(id)` returns the stored publication; a
missing target comes back with no citation-path list yet (the caller creates
the empty list). -/
def Storage.load_pub (st : Storage) (id : String) : Publication :=
  match st.pubs.lookup id with
  | some p => p
  | none => { id := id, name := "", path := id, cit_paths := none }

/-- Fresh empty storage. -/
def Storage.empty : Storage := { authors := [], pubs := [], user_pub_ids := [] }

/-- Result of one invocation of a source's step function.  Modelled from the
spec: "a set of author records, a set of self publication records, a mapping
from a publication identifier to newly discovered citing publications, a
next-Stage (or none), and a delay before the next step"; the `Step` class
itself (`crawler/step.py`) is not under `src/`. -/
structure Step (σ : Type) where
  authors : List Author
  self_publications : List Publication
  citations : List (String × List Publication)
  stage : Option σ
  delay : ℚ

/-- Modelled from the spec: the `Step` class is not under `src/`; in the
spec's step-result model the author records are already carried directly, so
the normalisation `fix_authors` performs on embedded authors is the identity
here. -/
def Step.fix_authors (s : Step σ) : Step σ := s

/-- Outcome of awaiting `self._step(...)`: an exception, a successful return
of a non-`Step` value, or a proper `Step`. -/
inductive StepOutcome (σ : Type) where
  | exc
  | malformed
  | ok (s : Step σ)

/-- Error raised by `Task.step` itself (the `TypeError` for invalid step data). -/
inductive StepError where
  | typeError
deriving DecidableEq, Repr

/-- Mutable fields of a `Task`: `_stage`, `_due` (event-loop clock), `_error`
(consecutive error count) and its `Storage`. -/
structure TaskState (σ : Type) where
  stage : σ
  due : ℚ
  error : Nat
  storage : Storage

/-- Fixed backoff ladder from `task.py`: `[1, 10, 60, 10*60, 60*60, 24*60*60]`. -/
def ERROR_DELAYS : List ℚ := [1, 10, 60, 10 * 60, 60 * 60, 24 * 60 * 60]

/-- Jitter fraction from `task.py`. -/
def DELAY_JITTER_PERCENT : ℚ := 5 / 100

/-- Delay chosen on a failure when `_error` is `e` before the increment:
`ERROR_DELAYS[min(self._error, len(ERROR_DELAYS) - 1)]`. -/
def errorDelay (e : Nat) : ℚ :=
  ERROR_DELAYS.getD (min e (ERROR_DELAYS.length - 1)) 0

/-- Storage effect of one citations-map entry (`for cites_pub_id, citations in
step.citations.items()` body in `Task.step`). -/
def applyCitation (st : Storage) (entry : String × List Publication) : Storage :=
  let pub0 := st.load_pub entry.1
  let pub1 := if pub0.cit_paths = none then { pub0 with cit_paths := some [] } else pub0
  let acc := entry.2.foldl
    (fun a cit => (a.1.save_pub cit, insertIfNew a.2 cit.path))
    (st, (pub1.cit_paths.getD []).dedup)
  acc.1.save_pub { pub1 with cit_paths := some acc.2 }

/-- Success branch of `Task.step`: apply the step's authors, self publications
(extending the `user_pub_ids` set), citations, then advance the stage (`None`
means back to the initial stage) and set `due = now + delay + jitter`. -/
def applyStep (initial_stage : σ) (now jitter : ℚ) (s : Step σ) (t : TaskState σ) :
    TaskState σ :=
  let s := s.fix_authors
  let st1 := s.authors.foldl Storage.save_author t.storage
  let acc := s.self_publications.foldl
    (fun a pub => (a.1.save_pub pub, insertIfNew a.2 pub.id))
    (st1, st1.user_pub_ids.dedup)
  let st2 := { acc.1 with user_pub_ids := acc.2 }
  let st3 := s.citations.foldl applyCitation st2
  { stage := s.stage.getD initial_stage
    due := now + s.delay + jitter
    error := 0
    storage := st3 }

/-- One call of `Task.step(session)`.  `initial_stage` is the class's
`initial_stage()`, `now` the event-loop clock at the end of the call, `jitter`
the drawn jitter, and `outcome` what awaiting `self._step` produced.  Returns
the task state after the call together with the error the call raised, if any. -/
def Task.step (initial_stage : σ) (now jitter : ℚ) (outcome : StepOutcome σ)
    (t : TaskState σ) : TaskState σ × Option StepError :=
  match outcome with
  | .exc =>
      let delay := errorDelay t.error
      ({ t with error := t.error + 1, due := now + delay }, none)
  | .malformed =>
      ({ t with error := 0 }, some .typeError)
  | .ok s =>
      (applyStep initial_stage now jitter s t, none)

/-! Merger (`src/server/merger.py`). -/

/-- Python `\w` over ASCII: letters, digits and underscore. -/
def isWordChar (c : Char) : Bool :=
  c.isAlphanum || c = '_'

/-- Scanner for `wordTokens`: `acc` holds the current run of word characters,
reversed. -/
def wordTokensAux : List Char → List Char → List (List Char)
  | [], acc => if acc.isEmpty then [] else [acc.reverse]
  | c :: cs, acc =>
      if isWordChar c then
        wordTokensAux cs (c :: acc)
      else if acc.isEmpty then
        wordTokensAux cs []
      else
        acc.reverse :: wordTokensAux cs []

/-- Maximal runs of word characters, `re.findall(r"\w+", s)`. -/
def wordTokens (s : List Char) : List (List Char) :=
  wordTokensAux s []

/-- Word sequence of a title after `s.lower()`:
`_words_re.findall(s.lower())` in `similarity`. -/
def pyWords (s : String) : List (List Char) :=
  wordTokens (s.data.map Char.toLower)

/-- Title similarity from `merger.py`: `1.0` when both lower-cased word
sequences coincide, `0.0` otherwise. -/
def similarity (a b : Publication) : ℚ :=
  if pyWords a.name = pyWords b.name then 1 else 0

/-- Similarity threshold from `merger.py`. -/
def SIMILARITY_THRESHOLD : ℚ := 9 / 10

/-- Automatic sweep period (seconds) from `merger.py`. -/
def AUTO_DELAY : ℚ := 24 * 60 * 60

/-- Merge record dataclass from `merger.py`. -/
structure Merge where
  source_a : String
  source_b : String
  pub_a : String
  pub_b : String
  similarity : ℚ
deriving DecidableEq, Repr

/-- Ordered pairs taken by `itertools.combinations(l, 2)`. -/
def combinations2 : List α → List (α × α)
  | [] => []
  | x :: xs => (xs.map fun y => (x, y)) ++ combinations2 xs

/-- Cartesian product in `itertools.product` order. -/
def listProduct (as : List α) (bs : List β) : List (α × β) :=
  as.flatMap fun a => bs.map fun b => (a, b)

/-- Merge records one sweep accumulates for one subject
(`Merger._merge_user`'s `result` list): every unordered pair of distinct
configured sources, every publication pair, kept when
`sim >= SIMILARITY_THRESHOLD`. -/
def mergeUserResult (crawlers : List String) (pubs : String → List Publication) :
    List Merge :=
  (combinations2 crawlers).flatMap fun srcs =>
    (listProduct (pubs srcs.1) (pubs srcs.2)).filterMap fun pp =>
      if similarity pp.1 pp.2 ≥ SIMILARITY_THRESHOLD then
        some { source_a := srcs.1, source_b := srcs.2,
               pub_a := pp.1.path, pub_b := pp.2.path,
               similarity := similarity pp.1 pp.2 }
      else none

/-- Modelled from the spec: `save_merges(username, result)` stores the full
result list for the subject, replacing the previous set; the database class is
not under `src/`. -/
def save_merges (db : String → List Merge) (username : String) (result : List Merge) :
    String → List Merge :=
  fun u => if u = username then result else db u

/-- Whole of `Merger._merge_user`: build the sweep's records, then one
`save_merges` call. -/
def mergeUser (db : String → List Merge) (username : String) (crawlers : List String)
    (pubs : String → List Publication) : String → List Merge :=
  save_merges db username (mergeUserResult crawlers pubs)

/-- State of the merger's `asyncio.Event` trigger (`self._force_check`). -/
structure MergerState where
  force_check : Bool
deriving DecidableEq, Repr

/-- `Merger.force_merge`: report `False` when the trigger is already set,
otherwise set it and report `True`. -/
def force_merge (m : MergerState) : Bool × MergerState :=
  if m.force_check then (false, m)
  else (true, { m with force_check := true })

/-- What one iteration of `Merger._periodic_merge` meets: the sweep `_merge()`
succeeds, raises an `Exception`, or the iteration is cancelled. -/
inductive SweepOutcome where
  | ok
  | exc
  | cancel
deriving DecidableEq, Repr

/-- How `_periodic_merge` left its loop. -/
inductive LoopExit where
  | cancelled
  | errorLogged
  | running
deriving DecidableEq, Repr

/-- Behaviour of `Merger._periodic_merge` over a schedule of iteration
outcomes: the number of sweeps executed and how the loop exited.  The
`try`/`except` wraps the whole `while True`, so an `Exception` escaping
`_merge()` is logged and the coroutine returns; `CancelledError` is re-raised. -/
def periodicMerge : List SweepOutcome → Nat × LoopExit
  | [] => (0, .running)
  | .ok :: rest => ((periodicMerge rest).1 + 1, (periodicMerge rest).2)
  | .exc :: _ => (1, .errorLogged)
  | .cancel :: _ => (0, .cancelled)

/-! Task persistence (`Task.save` / `Task.load` in `task.py`).  A persisted
stage is its integer tag `INDEX` plus its dataclass field values (`asdict`);
`V` is the type of persisted field values. -/

/-- A concrete `Stage` value: the variant's `INDEX` and its field map. -/
structure StageVal (V : Type) where
  index : Nat
  fields : List (String × V)
deriving DecidableEq, Repr

/-- Contents of `task.json`: the stage's fields, `_index`, and the wall-clock
`due`. -/
structure PersistFile (V : Type) where
  index : Nat
  fields : List (String × V)
  due : ℚ
deriving DecidableEq, Repr

/-- The `Task` fields `Task.load`/`Task.save` touch: `_stage`, `_due`
(event-loop clock), `_error`, plus whether `storage.load()` ran. -/
structure PersistState (V : Type) where
  stage : StageVal V
  due : ℚ
  error : Nat
  storage_loaded : Bool
deriving DecidableEq, Repr

/-- `Task.__init__`: `_due = 0`, `_error = 0`, `_stage = initial_stage()`. -/
def Task.init (initial_stage : StageVal V) : PersistState V :=
  { stage := initial_stage, due := 0, error := 0, storage_loaded := false }

/-- The `for field in dir(self.Stage)` scan of `Task.load`: each declared
dataclass variant whose `INDEX` equals the persisted tag overwrites `_stage`
with `Field(**data)`; variants that do not match leave it alone. -/
def loadStage (variants : List Nat) (cur : StageVal V) (idx : Nat)
    (data : List (String × V)) : StageVal V :=
  variants.foldl
    (fun acc v => if v = idx then { index := idx, fields := data } else acc) cur

/-- `Task.load`: bulk-load storage; a missing `task.json` returns early;
otherwise convert the wall-clock `due` to the event-loop clock and decode the
stage by its tag.  `variants` lists the `INDEX` values of the declared
dataclass variants of the task's `Stage` class, in `dir` order. -/
def Task.load (variants : List Nat) (file : Option (PersistFile V))
    (loopNow wallNow : ℚ) (t : PersistState V) : PersistState V :=
  let t := { t with storage_loaded := true }
  match file with
  | none => t
  | some f =>
      let delta := f.due - wallNow
      { t with
        due := loopNow + delta
        stage := loadStage variants t.stage f.index f.fields }

/-- `Task.save`: write `asdict(stage)` plus `_index` and the due instant
converted from the event-loop clock to the wall clock (storage is also bulk
saved, which does not touch these fields). -/
def Task.save (stage : StageVal V) (due loopNow wallNow : ℚ) : PersistFile V :=
  { index := stage.index, fields := stage.fields, due := wallNow + (due - loopNow) }

/-- A run of consecutive failing `Task.step` calls: each call's `_step` raises,
at event-loop times `nows`.  The failure branch never reads the jitter, so it
is passed as `0`. -/
def excSteps (initial_stage : σ) (nows : List ℚ) (t : TaskState σ) : TaskState σ :=
  nows.foldl (fun t now => (Task.step initial_stage now 0 .exc t).1) t

/-! Helper lemmas. -/

theorem mem_combinations2 {α : Type} (l : List α) (p : α × α) :
    p ∈ combinations2 l ↔ List.Sublist [p.1, p.2] l := by
  induction l with
  | nil => simp [combinations2]
  | cons x xs ih =>
      simp only [combinations2, List.mem_append, List.mem_map, ih]
      constructor
      · rintro (⟨y, hy, rfl⟩ | h)
        · exact List.Sublist.cons₂ _ (List.singleton_sublist.mpr hy)
        · exact h.cons _
      · intro h
        rcases List.sublist_cons_iff.mp h with h | ⟨r, hr, hsub⟩
        · exact Or.inr h
        · cases p
          cases hr
          exact Or.inl ⟨_, List.singleton_sublist.mp hsub, rfl⟩

theorem mem_listProduct {α β : Type} (as : List α) (bs : List β) (p : α × β) :
    p ∈ listProduct as bs ↔ p.1 ∈ as ∧ p.2 ∈ bs := by
  simp only [listProduct, List.mem_flatMap, List.mem_map]
  constructor
  · rintro ⟨a, ha, b, hb, he⟩
    cases he
    exact ⟨ha, hb⟩
  · intro h
    exact ⟨p.1, h.1, p.2, h.2, rfl⟩

theorem excSteps_error (initial_stage : σ) (nows : List ℚ) (t : TaskState σ) :
    (excSteps initial_stage nows t).error = t.error + nows.length := by
  induction nows generalizing t with
  | nil => simp [excSteps]
  | cons n ns ih =>
      simp only [excSteps, List.foldl_cons] at *
      rw [ih]
      simp [Task.step]
      omega

theorem excSteps_append_last (initial_stage : σ) (nows : List ℚ) (lastNow : ℚ)
    (t : TaskState σ) :
    excSteps initial_stage (nows ++ [lastNow]) t =
      (Task.step initial_stage lastNow 0 .exc (excSteps initial_stage nows t)).1 := by
  simp [excSteps, List.foldl_append]

theorem errorDelay_eq_spec_ladder (e : Nat) :
    errorDelay e = ([1, 10, 60, 600, 3600, 86400] : List ℚ).getD (min e 5) 0 := by
  have h : ERROR_DELAYS = ([1, 10, 60, 600, 3600, 86400] : List ℚ) := by
    simp [ERROR_DELAYS]
    norm_num
  rw [errorDelay, h]
  rfl

theorem loadStage_of_mem {V : Type} (variants : List Nat) (cur : StageVal V)
    (idx : Nat) (data : List (String × V)) (h : idx ∈ variants) :
    loadStage variants cur idx data = { index := idx, fields := data } := by
  have habsorb : ∀ (l : List Nat),
      l.foldl (fun acc v => if v = idx then ({ index := idx, fields := data } : StageVal V)
        else acc) { index := idx, fields := data } = { index := idx, fields := data } := by
    intro l
    induction l with
    | nil => rfl
    | cons v vs ih => by_cases hv : v = idx <;> simp [hv, ih]
  induction variants with
  | nil => cases h
  | cons v vs ih =>
      rcases List.mem_cons.mp h with rfl | hmem
      · simpa [loadStage] using habsorb vs
      · by_cases hv : v = idx
        · subst hv
          simpa [loadStage] using habsorb vs
        · simpa [loadStage, hv] using ih hmem

/-! Claim theorems. -/

/-- C5: `similarity` returns `1.0` exactly when the lower-cased word sequences
(maximal `\w+` runs, punctuation and extra whitespace ignored) of the two
titles coincide, and `0.0` otherwise; in particular "Deep Learning!!" vs
"deep   learning" scores `1.0` and "Deep Learning" vs
"Deep Learning Systems" scores `0.0`. -/
theorem similarity_normalized_title_equality :
    (∀ a b : Publication,
        (pyWords a.name = pyWords b.name → similarity a b = 1) ∧
        (pyWords a.name ≠ pyWords b.name → similarity a b = 0)) ∧
    similarity { id := "x", name := "Deep Learning!!", path := "x", cit_paths := none }
        { id := "y", name := "deep   learning", path := "y", cit_paths := none } = 1 ∧
    similarity { id := "x", name := "Deep Learning", path := "x", cit_paths := none }
        { id := "y", name := "Deep Learning Systems", path := "y", cit_paths := none } = 0 := by
  refine ⟨fun a b => ⟨fun h => ?_, fun h => ?_⟩, by decide, by decide⟩
  · simp [similarity, h]
  · simp [similarity, h]

/-- Witness for C5 at a concrete matching pair. -/
theorem similarity_normalized_title_equality_witness :
    pyWords "AAa" = pyWords "aaA!" ∧
    similarity { id := "i", name := "AAa", path := "p", cit_paths := none }
      { id := "j", name := "aaA!", path := "q", cit_paths := none } = 1 :=
  ⟨by decide, (similarity_normalized_title_equality.1 _ _).1 (by decide)⟩

/-- C6: when `_step` raises, `Task.step` leaves the stage and the storage
untouched and raises nothing itself; only the consecutive-error counter and
the due time change, to `error + 1` and `now + errorDelay error`. -/
theorem step_exception_leaves_stage_and_storage {σ : Type} (init : σ)
    (now jitter : ℚ) (t : TaskState σ) :
    (Task.step init now jitter .exc t).1.stage = t.stage ∧
    (Task.step init now jitter .exc t).1.storage = t.storage ∧
    (Task.step init now jitter .exc t).2 = none ∧
    (Task.step init now jitter .exc t).1.error = t.error + 1 ∧
    (Task.step init now jitter .exc t).1.due = now + errorDelay t.error :=
  ⟨rfl, rfl, rfl, rfl, rfl⟩

/-- C7: when `_step` returns a value that is not a `Step`, `Task.step` raises
a `TypeError`; no backoff delay is applied (the due time is unchanged), and
neither the stage nor the storage is mutated — unlike the transient-failure
branch of C6.  (The code does reset the consecutive-error counter to `0`
before the shape check.) -/
theorem step_malformed_result_raises_type_error {σ : Type} (init : σ)
    (now jitter : ℚ) (t : TaskState σ) :
    (Task.step init now jitter .malformed t).2 = some .typeError ∧
    (Task.step init now jitter .malformed t).1.stage = t.stage ∧
    (Task.step init now jitter .malformed t).1.storage = t.storage ∧
    (Task.step init now jitter .malformed t).1.due = t.due ∧
    (Task.step init now jitter .malformed t).1.error = 0 :=
  ⟨rfl, rfl, rfl, rfl, rfl⟩

/-- C8: `force_merge` reports `true` exactly when the trigger was not yet
pending, and always leaves the trigger set; when it was already pending the
state is unchanged (it already equals the all-set state), so of two
consecutive calls from idle the first returns `true` and the second `false`. -/
theorem force_merge_exactly_once :
    (∀ m : MergerState,
        (force_merge m).1 = !m.force_check ∧
        (force_merge m).2 = { force_check := true }) ∧
    (force_merge { force_check := false }).1 = true ∧
    (force_merge (force_merge { force_check := false }).2).1 = false := by
  refine ⟨fun m => ?_, by decide, by decide⟩
  cases m with
  | mk fc => cases fc <;> simp [force_merge]

/-- C10: with no persisted `task.json`, `Task.load` absorbs the
`FileNotFoundError` and returns with the freshly-constructed state — the
initial stage, due time `0`, consecutive-error count `0` — and the storage
bulk load has still taken place. -/
theorem load_missing_file_fresh_state {V : Type} (variants : List Nat)
    (init : StageVal V) (loopNow wallNow : ℚ) :
    Task.load variants none loopNow wallNow (Task.init init) =
      { stage := init, due := 0, error := 0, storage_loaded := true } :=
  rfl

/-- C1: over any run of `n ≥ 1` consecutive failing steps starting from a
reset counter, the delay applied on the n-th failure is
`ERROR_DELAYS[min(n-1, 5)]` from the ladder `[1, 10, 60, 600, 3600, 86400]`,
the due time becomes the failure instant plus that delay, and a subsequent
successful step resets the consecutive-error counter to `0`.  Here
`n = ns.length + 1` and `lastNow` is the event-loop time of the n-th failure. -/
theorem task_backoff_ladder {σ : Type} (init : σ) (t : TaskState σ)
    (h0 : t.error = 0) (ns : List ℚ) (lastNow : ℚ) :
    (excSteps init (ns ++ [lastNow]) t).error = ns.length + 1 ∧
    (excSteps init (ns ++ [lastNow]) t).due =
      lastNow +
        ([1, 10, 60, 600, 3600, 86400] : List ℚ).getD (min (ns.length + 1 - 1) 5) 0 ∧
    ∀ (now jitter : ℚ) (s : Step σ),
      (Task.step init now jitter (.ok s) (excSteps init (ns ++ [lastNow]) t)).1.error
        = 0 := by
  refine ⟨?_, ?_, fun now jitter s => rfl⟩
  · rw [excSteps_error, h0, List.length_append]
    simp
  · rw [excSteps_append_last]
    have hdue : (Task.step init lastNow 0 .exc (excSteps init ns t)).1.due
        = lastNow + errorDelay (excSteps init ns t).error := rfl
    rw [hdue, excSteps_error, h0, errorDelay_eq_spec_ladder]
    norm_num

/-- Witness for C1: three consecutive failures from a fresh task, the last at
time `50`, leave the counter at `3` and the due time at `50 + 60`
(`ERROR_DELAYS[min(3-1, 5)] = 60`). -/
theorem task_backoff_ladder_witness :
    ({ stage := (), due := 0, error := 0, storage := Storage.empty } :
        TaskState Unit).error = 0 ∧
    (excSteps () [5, 7, 50]
        { stage := (), due := 0, error := 0, storage := Storage.empty }).error = 3 ∧
    (excSteps () [5, 7, 50]
        { stage := (), due := 0, error := 0, storage := Storage.empty }).due = 110 := by
  have h := task_backoff_ladder ()
    { stage := (), due := 0, error := 0, storage := Storage.empty } rfl [5, 7] 50
  refine ⟨rfl, h.1, ?_⟩
  have h2 := h.2.1
  rw [show ([1, 10, 60, 600, 3600, 86400] : List ℚ).getD
      (min (([5, 7] : List ℚ).length + 1 - 1) 5) 0 = 60 from rfl] at h2
  show (excSteps () ([5, 7] ++ [50])
      { stage := (), due := 0, error := 0, storage := Storage.empty }).due = 110
  rw [h2]
  norm_num

/-- C2 counterexample: with the first sweep raising and the next iteration
available, `_periodic_merge` performs only the one failing sweep and exits with
the exception logged — not the two sweeps the claim's "keeps running" would
give. -/
theorem periodic_loop_failure_cex :
    (periodicMerge [.exc, .ok]).1 = 1 ∧
    (periodicMerge [.exc, .ok]).1 ≠ 2 ∧
    (periodicMerge [.exc, .ok]).2 = .errorLogged := by decide

/-- C2 (amended): a sweep exception is caught and logged, but it terminates
`_periodic_merge`: exactly the sweeps before and including the failing one
run, and nothing after it; a cancellation stops the loop re-raising, and an
error-free schedule keeps the loop alive with one sweep per iteration. -/
theorem periodic_loop_exits_on_sweep_failure (pre post : List SweepOutcome)
    (h : ∀ o ∈ pre, o = .ok) :
    periodicMerge (pre ++ .exc :: post) = (pre.length + 1, .errorLogged) ∧
    periodicMerge (pre ++ .cancel :: post) = (pre.length, .cancelled) ∧
    periodicMerge pre = (pre.length, .running) := by
  induction pre with
  | nil => exact ⟨rfl, rfl, rfl⟩
  | cons o os ih =>
      have ho : o = .ok := h o (List.mem_cons_self o os)
      subst ho
      have ih' := ih fun o hm => h o (List.mem_cons_of_mem _ hm)
      refine ⟨?_, ?_, ?_⟩ <;>
        simp [periodicMerge, ih'.1, ih'.2.1, ih'.2.2, Nat.add_comm, Nat.add_assoc]

/-- Witness for C2 (amended): one successful sweep, then a failing one, then a
scheduled iteration that never runs. -/
theorem periodic_loop_exits_on_sweep_failure_witness :
    periodicMerge [.ok, .exc, .ok] = (2, .errorLogged) :=
  (periodic_loop_exits_on_sweep_failure [.ok] [.ok] (by decide)).1

/-- C3: the code evaluated at the failing input — a persisted tag (`7`)
matching no declared variant (`[1, 2]`) — shows `Task.load` returning
normally with the freshly-constructed initial stage silently kept, instead of
raising the fatal error the claim (and the spec's invariant) requires. -/
theorem load_unknown_tag_silently_defaults :
    Task.load [1, 2]
        (some { index := 7, fields := [("cursor", (3 : Nat))], due := 50 }) 0 0
        (Task.init { index := 1, fields := [("cursor", 0)] }) =
      { stage := { index := 1, fields := [("cursor", 0)] }, due := 50, error := 0,
        storage_loaded := true } := by
  norm_num [Task.load, Task.init, loadStage, PersistState.mk.injEq]

/-- C4: one sweep for a subject accumulates exactly the records over unordered
pairs of distinct configured sources whose publication-pair similarity reaches
the threshold, and publishes them in a single replacing `save_merges` call;
the example sources `A: [p1 = "X"]`, `B: [p2 = "X", p3 = "Y"]` produce exactly
`(A, B, p1, p2, 1.0)`. -/
theorem merge_sweep_complete_replacement :
    (∀ (crawlers : List String) (pubs : String → List Publication) (m : Merge),
        m ∈ mergeUserResult crawlers pubs ↔
          ∃ sa sb pa pb, List.Sublist [sa, sb] crawlers ∧
            pa ∈ pubs sa ∧ pb ∈ pubs sb ∧
            similarity pa pb ≥ SIMILARITY_THRESHOLD ∧
            m = { source_a := sa, source_b := sb, pub_a := pa.path,
                  pub_b := pb.path, similarity := similarity pa pb }) ∧
    (∀ (db : String → List Merge) (username : String) (crawlers : List String)
        (pubs : String → List Publication),
        mergeUser db username crawlers pubs username = mergeUserResult crawlers pubs ∧
        ∀ v, v ≠ username → mergeUser db username crawlers pubs v = db v) ∧
    mergeUserResult ["A", "B"]
        (fun s =>
          if s = "A" then [{ id := "p1", name := "X", path := "p1", cit_paths := none }]
          else if s = "B" then
            [{ id := "p2", name := "X", path := "p2", cit_paths := none },
             { id := "p3", name := "Y", path := "p3", cit_paths := none }]
          else [])
      = [{ source_a := "A", source_b := "B", pub_a := "p1", pub_b := "p2",
           similarity := 1 }] := by
  refine ⟨fun crawlers pubs m => ?_, fun db username crawlers pubs => ?_, ?_⟩
  · simp only [mergeUserResult, List.mem_flatMap, List.mem_filterMap]
    constructor
    · rintro ⟨srcs, hsrcs, pp, hpp, hf⟩
      rw [mem_combinations2] at hsrcs
      rw [mem_listProduct] at hpp
      by_cases hsim : similarity pp.1 pp.2 ≥ SIMILARITY_THRESHOLD
      · rw [if_pos hsim, Option.some_inj] at hf
        subst hf
        exact ⟨srcs.1, srcs.2, pp.1, pp.2, hsrcs, hpp.1, hpp.2, hsim, rfl⟩
      · rw [if_neg hsim] at hf
        cases hf
    · rintro ⟨sa, sb, pa, pb, hsub, hpa, hpb, hsim, rfl⟩
      refine ⟨(sa, sb), ?_, (pa, pb), ?_, ?_⟩
      · rw [mem_combinations2]
        exact hsub
      · rw [mem_listProduct]
        exact ⟨hpa, hpb⟩
      · rw [if_pos hsim]
  · constructor
    · simp [mergeUser, save_merges]
    · intro v hv
      simp [mergeUser, save_merges, hv]
  · have hxy : wordTokens ['x'] ≠ wordTokens ['y'] := by decide
    have hle : ((9 : ℚ) / 10) ≤ 1 := by norm_num
    have hlt : (0 : ℚ) < 9 / 10 := by norm_num
    simp [mergeUserResult, combinations2, listProduct, similarity, pyWords,
      SIMILARITY_THRESHOLD, hxy, hle, hlt]

/-- Witness for C4: the replacing save leaves another subject's merge set
untouched. -/
theorem merge_sweep_complete_replacement_witness :
    ("other" : String) ≠ "alice" ∧
    mergeUser
        (fun u => [{ source_a := u, source_b := u, pub_a := "x", pub_b := "x",
                     similarity := 0 }])
        "alice" [] (fun _ => []) "other" =
      [{ source_a := "other", source_b := "other", pub_a := "x", pub_b := "x",
         similarity := 0 }] :=
  ⟨by decide,
   (merge_sweep_complete_replacement.2.1 _ "alice" [] _).2 "other" (by decide)⟩

/-- C9: persisting a Task whose stage is a declared variant and reloading into
a fresh Task restores the same variant tag and field values, and the due
instant is preserved once both sides are read on the wall clock (the saved and
reloaded event-loop values denote the same wall-clock instant). -/
theorem save_load_round_trip {V : Type} (variants : List Nat)
    (stage init : StageVal V) (due loopS wallS loopL wallL : ℚ)
    (hmem : stage.index ∈ variants) :
    (Task.load variants (some (Task.save stage due loopS wallS)) loopL wallL
        (Task.init init)).stage = stage ∧
    wallL + ((Task.load variants (some (Task.save stage due loopS wallS)) loopL wallL
        (Task.init init)).due - loopL) = wallS + (due - loopS) := by
  constructor
  · show loadStage variants init stage.index stage.fields = stage
    rw [loadStage_of_mem _ _ _ _ hmem]
  · show wallL + ((loopL + (wallS + (due - loopS) - wallL)) - loopL)
        = wallS + (due - loopS)
    ring

/-- Witness for C9 at a concrete stage, variant list and pair of clocks. -/
theorem save_load_round_trip_witness :
    (2 : Nat) ∈ [1, 2, 3] ∧
    (Task.load [1, 2, 3]
        (some (Task.save ({ index := 2, fields := [("cursor", 4)] } : StageVal Nat)
          100 10 1000)) 3 998
        (Task.init { index := 1, fields := [] })).stage
      = { index := 2, fields := [("cursor", 4)] } ∧
    998 + ((Task.load [1, 2, 3]
        (some (Task.save ({ index := 2, fields := [("cursor", 4)] } : StageVal Nat)
          100 10 1000)) 3 998
        (Task.init { index := 1, fields := [] })).due - 3) = 1000 + (100 - 10) := by
  have h := save_load_round_trip [1, 2, 3]
    ({ index := 2, fields := [("cursor", 4)] } : StageVal Nat)
    { index := 1, fields := [] } 100 10 1000 3 998 (by decide)
  exact ⟨by decide, h.1, h.2⟩

end CiteHub
